import Mathlib

/-!
A shallow embedding of the collegeEvent repository persistence layer:
the in-memory document store (src/config/memoryDb.js), the backend
selector (src/config/db.js) and the in-memory compatibility shim of the
event controller (src/controllers/eventController.js), together with
proofs about the documented behaviour of these functions.

Modelling conventions:
  - JS objects are association lists; a later binding shadows an earlier
    one (JS spread semantics), so field lookup takes the LAST matching
    entry.
  - JS numbers are rationals, JS Date values carry their epoch-millisecond
    reading, and every call that reads the clock takes that reading as an
    explicit parameter.
  - Promise-returning store operations complete synchronously (the source
    wraps plain values in Promise.resolve), so they are plain functions.
-/

namespace CollegeEvent

/-- A JS value as stored in a record field. JS strings, numbers and
booleans are primitives; a Date is an object carrying an epoch-millisecond
instant. -/
inductive Value where
  | vStr  : String → Value
  | vNum  : Rat → Value
  | vDate : Nat → Value
  | vBool : Bool → Value
  | vNull : Value
deriving DecidableEq

/-- A record (JS object): an association list of field bindings, where a
later binding shadows an earlier one, mirroring object spread. -/
abbrev Record := List (String × Value)

/-- Property read `r[k]`: the LAST binding of `k` wins, matching the
semantics of JS object literals built by spreads. -/
def getField (r : Record) (k : String) : Option Value :=
  r.foldl (fun acc p => if p.1 == k then some p.2 else acc) none

/-- First-some choice on optional values (used to state lookup lemmas). -/
def orD (a b : Option Value) : Option Value :=
  match a with
  | some v => some v
  | none => b

/-- JS strict equality between a stored field value and a filter-supplied
value. Primitives compare by value. A Date is an object and `===` on
objects is reference equality; every filter-side Date in this codebase is
freshly constructed (new Date(...) in the controller), so it is never the
same reference as a stored one and the comparison is false. -/
def strictEq (a b : Value) : Bool :=
  match a, b with
  | .vDate _, .vDate _ => false
  | a, b => a == b

/-- The value attached to one key of a mongoose-style filter object:
either a plain literal (equality), a range object with optional bounds
(written in the source as a fresh object with keys named dollar-gte and
dollar-lte), or a regular-expression object (the source builds it with the
dollar-regex and dollar-options keys, the flag recording the
case-insensitive option i). -/
inductive QVal where
  | lit   : Value → QVal
  | range : Option Value → Option Value → QVal
  | regex : String → Bool → QVal
deriving DecidableEq

/-- One disjunct of a logical-or condition: a conjunction of per-key
conditions, as in the source's `$or` array elements. -/
abbrev OrCond := List (String × QVal)

/-- A query object as received by memoryDbUtils.find: the optional `$or`
key plus the remaining ordinary keys. (JS object keys are unique, so the
`$or` key appears at most once.) -/
structure Query where
  orConds : Option (List OrCond) := none
  fields  : List (String × QVal) := []
deriving DecidableEq

/-- The source comparison `item[key] === condition[key]`: when the
condition value is a literal, strict equality with the record's field (a
missing field is `undefined`, equal to no literal); when it is a range or
regex object, `===` compares a stored primitive/Date value with a freshly
built object, which is always false. -/
def condEq (item : Record) (k : String) (qv : QVal) : Bool :=
  match qv with
  | .lit v =>
    match getField item k with
    | some w => strictEq w v
    | none => false
  | .range _ _ => false
  | .regex _ _ => false

/-- `Object.keys(condition).every(condKey => item[condKey] === condition[condKey])`. -/
def matchSimple (item : Record) (cond : OrCond) : Bool :=
  cond.all (fun p => condEq item p.1 p.2)

/-- The predicate of memoryDbUtils.find: every query key must hold; the
`$or` key holds when some disjunct fully matches; every other key is the
strict comparison `item[key] === query[key]`. -/
def matchQuery (item : Record) (q : Query) : Bool :=
  (match q.orConds with
   | some conds => conds.any (fun c => matchSimple item c)
   | none => true)
  && q.fields.all (fun p => condEq item p.1 p.2)

/-- The module-level `memoryDb` object: named collections of records.
Lookup of an absent collection yields the empty collection, mirroring
`memoryDb[collection] || []`. -/
abbrev MemoryDb := List (String × List Record)

/-- `memoryDb[collection] || []`. -/
def getColl (db : MemoryDb) (c : String) : List Record :=
  match db.find? (fun p => p.1 == c) with
  | some p => p.2
  | none => []

/-- Assignment `memoryDb[collection] = l`: the new binding shadows any
older one. -/
def setColl (db : MemoryDb) (c : String) (l : List Record) : MemoryDb :=
  (c, l) :: db

/-- The id test `item._id === id` shared by findById, update and delete
(the id argument is a string, so this is string value equality; a record
whose `_id` is absent or non-string matches no id). -/
def idMatch (id : String) (item : Record) : Bool :=
  getField item "_id" == some (Value.vStr id)

namespace memoryDbUtils

/-- memoryDbUtils.getAll. -/
def getAll (db : MemoryDb) (c : String) : List Record :=
  getColl db c

/-- memoryDbUtils.findById: first record whose `_id` strictly equals the
given id, else the null sentinel. -/
def findById (db : MemoryDb) (c : String) (id : String) : Option Record :=
  (getColl db c).find? (idMatch id)

/-- memoryDbUtils.find: an absent or empty query returns all items;
otherwise the collection is filtered by the query predicate. -/
def find (db : MemoryDb) (c : String) (q : Query) : List Record :=
  let items := getColl db c
  if q.orConds.isNone && q.fields.isEmpty then items
  else items.filter (fun item => matchQuery item q)

/-- memoryDbUtils.create at clock reading `now`: the id is
`Date.now().toString()`, the item is the object literal
`{_id, ...data, createdAt, updatedAt}` (so a later spread shadows an
earlier binding), appended to the collection (created if absent). -/
def create (db : MemoryDb) (now : Nat) (c : String) (data : Record) :
    Record × MemoryDb :=
  let item : Record :=
    [("_id", Value.vStr (Nat.repr now))] ++ data
      ++ [("createdAt", Value.vDate now), ("updatedAt", Value.vDate now)]
  (item, setColl db c (getColl db c ++ [item]))

/-- The findIndex-then-assign body of memoryDbUtils.update, written as a
structural recursion over the collection: the FIRST record whose `_id`
matches is replaced by `{...item, ...data, updatedAt: new Date()}` and
returned; if none matches the pair is (null, unchanged list). -/
def updateList (now : Nat) (id : String) (data : Record) :
    List Record → Option Record × List Record
  | [] => (none, [])
  | item :: rest =>
    if idMatch id item then
      let newItem := item ++ data ++ [("updatedAt", Value.vDate now)]
      (some newItem, newItem :: rest)
    else
      let p := updateList now id data rest
      (p.1, item :: p.2)

/-- memoryDbUtils.update at clock reading `now`. (When no record matches
the source leaves the array untouched and returns null; storing back the
structurally identical list is observationally the same store.) -/
def update (db : MemoryDb) (now : Nat) (c : String) (id : String)
    (data : Record) : Option Record × MemoryDb :=
  let p := updateList now id data (getColl db c)
  (p.1, setColl db c p.2)

/-- The findIndex-then-splice body of memoryDbUtils.delete: the FIRST
record whose `_id` matches is removed and returned. -/
def deleteList (id : String) :
    List Record → Option Record × List Record
  | [] => (none, [])
  | item :: rest =>
    if idMatch id item then (some item, rest)
    else
      let p := deleteList id rest
      (p.1, item :: p.2)

/-- memoryDbUtils.delete. -/
def delete (db : MemoryDb) (c : String) (id : String) :
    Option Record × MemoryDb :=
  let p := deleteList id (getColl db c)
  (p.1, setColl db c p.2)

end memoryDbUtils

/-- A mongoose-style filter object as built by the event controller:
the `_id` key (read by the shim's findOneAndUpdate/findOneAndDelete),
the `$or` key, the `date` range key (present exactly when at least one
bound was supplied), and the remaining ordinary keys (category, status,
organizer, ...). -/
structure Filter where
  id      : Option String := none
  orConds : Option (List OrCond) := none
  dateGte : Option Value := none
  dateLte : Option Value := none
  fields  : List (String × QVal) := []
deriving DecidableEq

/-- The options argument of the shim's Event.find: an optional sort
specification (field plus direction) and optional skip/limit counts. -/
structure FindOptions where
  sortField : Option String := none
  sortDesc  : Bool := false
  skip      : Option Nat := none
  limit     : Option Nat := none

/-- The query the shim's Event.find hands to memoryDbUtils.find
(source lines 31-44): it copies only the `$or` key and the `date` range
key; every other filter key is dropped. -/
def filterToQuery (f : Filter) : Query :=
  { orConds := f.orConds
  , fields :=
      if f.dateGte.isSome || f.dateLte.isSome then
        [("date", QVal.range f.dateGte f.dateLte)]
      else [] }

/-- The same filter viewed as the raw query object the shim's
countDocuments passes UNtranslated to memoryDbUtils.find: every key of
the filter object is a query key (`_id` as a literal string equality,
`date` as the range object, plus `$or` and the ordinary keys). -/
def filterRaw (f : Filter) : Query :=
  { orConds := f.orConds
  , fields :=
      (match f.id with
       | some i => [("_id", QVal.lit (Value.vStr i))]
       | none => [])
      ++ (if f.dateGte.isSome || f.dateLte.isSome then
            [("date", QVal.range f.dateGte f.dateLte)]
          else [])
      ++ f.fields }

/-- The JS `<` comparison used by the shim's sort comparator, on the
field values that callers actually sort by (two numbers, two dates or two
strings; a missing field is `undefined`, which compares false). Mixed-type
coercing comparisons do not arise for the single-field sorts the
controller performs. -/
def valueLt (a b : Option Value) : Bool :=
  match a, b with
  | some (.vNum x), some (.vNum y) => decide (x < y)
  | some (.vDate x), some (.vDate y) => decide (x < y)
  | some (.vStr x), some (.vStr y) => decide (x < y)
  | _, _ => false

/-- The sort comparator of Event.find (source lines 53-57): -1 when
`a[field] < b[field]`, 1 when greater, 0 otherwise; a descending
direction flips the signs. -/
def cmpRec (field : String) (desc : Bool) (a b : Record) : Int :=
  if valueLt (getField a field) (getField b field) then
    (if desc then 1 else -1)
  else if valueLt (getField b field) (getField a field) then
    (if desc then -1 else 1)
  else 0

/-- Stable insertion of an element arriving after every element already in
the list: it is placed before the first element it compares strictly
below, so ties keep their existing order — the stable-sort semantics of
Array.prototype.sort. -/
def insertRec (lt : Record → Record → Bool) (x : Record) :
    List Record → List Record
  | [] => [x]
  | y :: ys => if lt x y then x :: y :: ys else y :: insertRec lt x ys

/-- Stable sort by repeated insertion in arrival order. -/
def stableSort (lt : Record → Record → Bool) (l : List Record) :
    List Record :=
  l.foldl (fun acc x => insertRec lt x acc) []

namespace Event

/-- The in-memory mock Event.create: memoryDbUtils.create on the events
collection. -/
def create (db : MemoryDb) (now : Nat) (data : Record) :
    Record × MemoryDb :=
  memoryDbUtils.create db now "events" data

/-- The in-memory mock Event.findOneAndUpdate (source lines 17-25): it
reads ONLY the `_id` key of the filter, looks the record up by that id
and, when found, updates it — no other filter key is consulted. -/
def findOneAndUpdate (db : MemoryDb) (now : Nat) (f : Filter)
    (upd : Record) : Option Record × MemoryDb :=
  match f.id with
  | some id =>
    match memoryDbUtils.findById db "events" id with
    | some _ => memoryDbUtils.update db now "events" id upd
    | none => (none, db)
  | none => (none, db)

/-- The in-memory mock Event.findOneAndDelete (source lines 26-29): it
reads ONLY the `_id` key of the filter. -/
def findOneAndDelete (db : MemoryDb) (f : Filter) :
    Option Record × MemoryDb :=
  match f.id with
  | some id => memoryDbUtils.delete db "events" id
  | none => (none, db)

/-- The in-memory mock Event.find (source lines 30-66): translate the
filter (keeping only `$or` and the date range), query the store, then
apply the optional sort and, when both skip and limit are given, the
slice `[skip, skip+limit)`. -/
def find (db : MemoryDb) (f : Filter) (opts : FindOptions) :
    List Record :=
  let events := memoryDbUtils.find db "events" (filterToQuery f)
  let sorted :=
    match opts.sortField with
    | some fld =>
      stableSort (fun a b => cmpRec fld opts.sortDesc a b < 0) events
    | none => events
  match opts.skip, opts.limit with
  | some s, some l => (sorted.drop s).take l
  | _, _ => sorted

/-- The in-memory mock Event.findById. -/
def findById (db : MemoryDb) (id : String) : Option Record :=
  memoryDbUtils.findById db "events" id

/-- The in-memory mock Event.countDocuments (source lines 68-71): a full
memoryDbUtils.find with the RAW filter object, returning its length. -/
def countDocuments (db : MemoryDb) (f : Filter) : Nat :=
  (memoryDbUtils.find db "events" (filterRaw f)).length

end Event

/-- The `$or` filter listEvents builds for a text search `q` (source
lines 137-142): a case-insensitive regular-expression containment test on
title or on description. -/
def searchFilter (q : String) : Filter :=
  { id := none
  , orConds := some [[("title", QVal.regex q true)],
                     [("description", QVal.regex q true)]]
  , dateGte := none
  , dateLte := none
  , fields := [] }

/-- The process environment as read by src/config/db.js: the NODE_ENV
string and whether the MONGO_URI variable is set (truthy). -/
structure Env where
  nodeEnv : String
  mongoUriSet : Bool

/-- `const useMemoryDb = env.nodeEnv === 'development' && !process.env.MONGO_URI`
— evaluated once at module load. -/
def useMemoryDb (e : Env) : Bool :=
  e.nodeEnv == "development" && !e.mongoUriSet

/-- `export const usingMemoryDb = useMemoryDb` — the process-wide flag
consumed by the controllers. It is a module-level constant: nothing ever
reassigns it after module load. -/
def usingMemoryDb (e : Env) : Bool :=
  useMemoryDb e

/-- The first sample event payload, with the clock reading `now` at which
its `new Date(Date.now() + 7 * 24 * 60 * 60 * 1000)` is evaluated. -/
def sampleEvent1 (now : Nat) : Record :=
  [("title", Value.vStr "Tech Conference 2025"),
   ("description", Value.vStr "Annual technology conference with industry leaders"),
   ("date", Value.vDate (now + 7 * 24 * 60 * 60 * 1000)),
   ("location", Value.vStr "Convention Center"),
   ("price", Value.vNum (99.99 : Rat)),
   ("organizer", Value.vStr "Organizer Inc."),
   ("status", Value.vStr "approved")]

/-- The second sample event payload, dated two weeks after `now`. -/
def sampleEvent2 (now : Nat) : Record :=
  [("title", Value.vStr "Music Festival"),
   ("description", Value.vStr "Three-day music festival with top artists"),
   ("date", Value.vDate (now + 14 * 24 * 60 * 60 * 1000)),
   ("location", Value.vStr "Central Park"),
   ("price", Value.vNum (149.99 : Rat)),
   ("organizer", Value.vStr "Festival Corp"),
   ("status", Value.vStr "approved")]

/-- connectDB from src/config/db.js, with the clock readings `t1`, `t2`
of the two seeding create calls and the outcome `mongoOk` of the
mongoose.connect attempt made explicit.

  - When `useMemoryDb` holds, the two sample events are created and the
    function returns.
  - Otherwise the connection is attempted. On success, when NODE_ENV is
    development, the two sample events are created.
  - On failure (the catch block), the two sample events are created.
    NOTHING in this path writes to the `usingMemoryDb` constant.

In the source, both the success-and-development path and the catch path
contain a conditional clear of the events array, but it is DEAD CODE:
its guard tests `memoryDbUtils.memoryDb` for definedness, and the
destructured utils object exports only the six CRUD methods — it has no
memoryDb property — so the guard is always false and the clear never
executes. The model therefore performs no clear. -/
def connectDB (e : Env) (mongoOk : Bool) (t1 t2 : Nat) (db : MemoryDb) :
    MemoryDb :=
  if useMemoryDb e then
    let db1 := (memoryDbUtils.create db t1 "events" (sampleEvent1 t1)).2
    (memoryDbUtils.create db1 t2 "events" (sampleEvent2 t2)).2
  else if mongoOk then
    if e.nodeEnv == "development" then
      let db1 := (memoryDbUtils.create db t1 "events" (sampleEvent1 t1)).2
      (memoryDbUtils.create db1 t2 "events" (sampleEvent2 t2)).2
    else db
  else
    let db1 := (memoryDbUtils.create db t1 "events" (sampleEvent1 t1)).2
    (memoryDbUtils.create db1 t2 "events" (sampleEvent2 t2)).2

/-- ASCII lower-casing of one character (sufficient for the documented
sample data). -/
def lowerChar (c : Char) : Char :=
  if 65 ≤ c.toNat && c.toNat ≤ 90 then Char.ofNat (c.toNat + 32) else c

/-- Modelled from the spec: case-insensitive substring containment
("record's field value, compared as text, must contain the given text
ignoring case") — the semantics the real backend gives the
regular-expression filter with option i that the controller builds. Used
only to state what the in-memory matcher fails to implement. -/
def strContainsCI (hay needle : String) : Bool :=
  let h := hay.toList.map lowerChar
  let n := needle.toList.map lowerChar
  (List.range (h.length + 1)).any (fun i => n.isPrefixOf (h.drop i))

/-- A condition value whose shape is an operator object rather than a
plain literal (the range and regex shapes). -/
def isOpShape : QVal → Bool
  | .lit _ => false
  | _ => true

/-- Empty options for the shim's Event.find: no sort, no pagination. -/
def noOpts : FindOptions :=
  { sortField := none, sortDesc := false, skip := none, limit := none }

/-! ### Concrete stores and filters used to evaluate the definitions -/

/-- Two create calls whose Date.now() readings tie (same millisecond). -/
def c6Step1 : Record × MemoryDb :=
  memoryDbUtils.create ([] : MemoryDb) 1700000000000 "events"
    [("title", Value.vStr "A")]

/-- The second create of the tying pair, against the store left by the
first. -/
def c6Step2 : Record × MemoryDb :=
  memoryDbUtils.create c6Step1.2 1700000000000 "events"
    [("title", Value.vStr "B")]

/-- A record whose date lies strictly between two bounds. -/
def c4Rec : Record :=
  [("_id", Value.vStr "1"), ("title", Value.vStr "E"),
   ("date", Value.vDate 10)]

/-- The query the shim builds for a date-range filter with both bounds. -/
def c4Query : Query :=
  { orConds := none
  , fields := [("date", QVal.range (some (Value.vDate 5)) (some (Value.vDate 15)))] }

/-- A record titled like the documented sample. -/
def musicRec : Record :=
  [("_id", Value.vStr "2"), ("title", Value.vStr "Music Festival")]

/-- The store produced by connectDB when the flag chose MongoDB, the
connection attempt failed, and the two seeding creates read the clock at
5000 and 6000, starting from the module-load initial store (every
collection empty — the state connectDB actually runs against at process
start). -/
def c1Db : MemoryDb :=
  connectDB { nodeEnv := "production", mongoUriSet := true } false 5000 6000 []

/-- The same failed connect against a store already holding one stale
event, exhibiting that the guarded clear in the catch block never runs. -/
def c1DbStale : MemoryDb :=
  connectDB { nodeEnv := "production", mongoUriSet := true } false 5000 6000
    [("events", [[("_id", Value.vStr "9"), ("title", Value.vStr "Stale")]])]

/-- An event owned by alice. -/
def ownedRec : Record :=
  [("_id", Value.vStr "1"), ("title", Value.vStr "Launch"),
   ("organizer", Value.vStr "alice")]

/-- The ownership filter the controller passes: this id AND a different
owner. -/
def ownerFilter : Filter :=
  { id := some "1", orConds := none, dateGte := none, dateLte := none,
    fields := [("organizer", QVal.lit (Value.vStr "bob"))] }

/-- A stored record with status approved. -/
def approvedRec : Record :=
  [("_id", Value.vStr "3"), ("title", Value.vStr "T"),
   ("status", Value.vStr "approved")]

/-- A filter on an ordinary field the shim's find does not translate. -/
def statusFilter : Filter :=
  { id := none, orConds := none, dateGte := none, dateLte := none,
    fields := [("status", QVal.lit (Value.vStr "pending"))] }

/-- A filter carrying only a date lower bound (a key the shim's find does
translate). -/
def dateOnlyFilter : Filter :=
  { id := none, orConds := none, dateGte := some (Value.vDate 0),
    dateLte := none, fields := [] }

/-- A record created at clock reading 1000. -/
def c8Created : Record × MemoryDb :=
  memoryDbUtils.create ([] : MemoryDb) 1000 "events"
    [("title", Value.vStr "T"), ("location", Value.vStr "L")]

/-- The record c8Created stores, written out. -/
def c8Rec : Record :=
  [("_id", Value.vStr "1000"), ("title", Value.vStr "T"),
   ("location", Value.vStr "L"), ("createdAt", Value.vDate 1000),
   ("updatedAt", Value.vDate 1000)]

/-- An update whose clock reading ties with the creation reading. -/
def c8Upd : Option Record × MemoryDb :=
  memoryDbUtils.update c8Created.2 1000 "events" "1000"
    [("location", Value.vStr "M")]

/-- An update whose data rebinds the `_id` system field. -/
def c8UpdId : Option Record × MemoryDb :=
  memoryDbUtils.update c8Created.2 2000 "events" "1000"
    [("_id", Value.vStr "X")]

/-- Update data that rebinds both untouched system fields. -/
def c10Data : Record :=
  [("_id", Value.vStr "Z"), ("createdAt", Value.vDate 77)]

/-- The merged record that updating ownedRec with c10Data at clock 9
produces. -/
def c10Res : Record :=
  ownedRec ++ c10Data ++ [("updatedAt", Value.vDate 9)]

/-! ### Lookup algebra for records built by spreads -/

theorem getField_foldl (k : String) (l : Record) (init : Option Value) :
    l.foldl (fun acc p => if p.1 == k then some p.2 else acc) init
      = orD (getField l k) init := by
  induction l generalizing init with
  | nil => rfl
  | cons p t ih =>
    show t.foldl _ (if p.1 == k then some p.2 else init)
        = orD ((p :: t).foldl _ none) init
    rw [ih]
    show orD (getField t k) _
        = orD (t.foldl _ (if p.1 == k then some p.2 else none)) init
    rw [ih]
    cases h : getField t k with
    | some v => rfl
    | none =>
      by_cases hp : (p.1 == k) = true <;> simp [orD, hp]

theorem getField_append (l1 l2 : Record) (k : String) :
    getField (l1 ++ l2) k = orD (getField l2 k) (getField l1 k) := by
  show (l1 ++ l2).foldl _ none = _
  rw [List.foldl_append]
  exact getField_foldl k l2 (l1.foldl _ none)

theorem getField_single (a : String) (v : Value) (k : String) :
    getField [(a, v)] k = if a == k then some v else none := rfl

theorem getColl_setColl (db : MemoryDb) (c : String) (l : List Record) :
    getColl (setColl db c l) c = l := by
  simp [getColl, setColl, List.find?]

/-- Merging data without an `_id` binding and stamping `updatedAt`
preserves the record's identifier, hence its id test. -/
theorem idMatch_append (id : String) (r data : Record) (w : Value)
    (hdata : getField data "_id" = none) :
    idMatch id (r ++ data ++ [("updatedAt", w)]) = idMatch id r := by
  unfold idMatch
  rw [getField_append, getField_append, hdata, getField_single]
  simp [orD]

/-! ### Behaviour of the update and delete scans -/

theorem updateList_spec (now : Nat) (id : String) (data : Record)
    (hdata : getField data "_id" = none) :
    ∀ (l : List Record) (r : Record), l.find? (idMatch id) = some r →
      (memoryDbUtils.updateList now id data l).1
          = some (r ++ data ++ [("updatedAt", Value.vDate now)])
      ∧ ((memoryDbUtils.updateList now id data l).2).find? (idMatch id)
          = some (r ++ data ++ [("updatedAt", Value.vDate now)]) := by
  intro l
  induction l with
  | nil => intro r h; simp at h
  | cons x t ih =>
    intro r h
    by_cases hx : idMatch id x = true
    · rw [List.find?_cons_of_pos _ hx] at h
      injection h with h
      subst h
      refine ⟨by simp [memoryDbUtils.updateList, hx], ?_⟩
      have hkeep : idMatch id (x ++ data ++ [("updatedAt", Value.vDate now)]) = true := by
        rw [idMatch_append id x data _ hdata]; exact hx
      have hstep : (memoryDbUtils.updateList now id data (x :: t)).2
          = (x ++ data ++ [("updatedAt", Value.vDate now)]) :: t := by
        simp [memoryDbUtils.updateList, hx]
      rw [hstep, List.find?_cons_of_pos _ hkeep]
    · rw [List.find?_cons_of_neg _ hx] at h
      obtain ⟨h1, h2⟩ := ih r h
      refine ⟨by simp [memoryDbUtils.updateList, hx, h1], ?_⟩
      have hstep : (memoryDbUtils.updateList now id data (x :: t)).2
          = x :: (memoryDbUtils.updateList now id data t).2 := by
        simp [memoryDbUtils.updateList, hx]
      rw [hstep, List.find?_cons_of_neg _ hx]
      exact h2

theorem updateList_shape (now : Nat) (id : String) (data : Record) :
    ∀ (l : List Record) (r' : Record),
      (memoryDbUtils.updateList now id data l).1 = some r' →
      ∃ r, r' = r ++ data ++ [("updatedAt", Value.vDate now)] := by
  intro l
  induction l with
  | nil => intro r' h; simp [memoryDbUtils.updateList] at h
  | cons x t ih =>
    intro r' h
    by_cases hx : idMatch id x = true
    · simp [memoryDbUtils.updateList, hx] at h
      exact ⟨x, by rw [List.append_assoc]; exact h.symm⟩
    · simp [memoryDbUtils.updateList, hx] at h
      exact ih r' h

theorem deleteList_fst (id : String) :
    ∀ l : List Record,
      (memoryDbUtils.deleteList id l).1 = l.find? (idMatch id) := by
  intro l
  induction l with
  | nil => rfl
  | cons x t ih =>
    by_cases hx : idMatch id x = true
    · simp [memoryDbUtils.deleteList, hx, List.find?_cons_of_pos _ hx]
    · rw [List.find?_cons_of_neg _ hx]
      simpa [memoryDbUtils.deleteList, hx] using ih

theorem deleteList_snd_no_match (id : String) :
    ∀ l : List Record, l.countP (idMatch id) ≤ 1 →
      ((memoryDbUtils.deleteList id l).2).find? (idMatch id) = none := by
  intro l
  induction l with
  | nil => intro _; rfl
  | cons x t ih =>
    intro hcount
    by_cases hx : idMatch id x = true
    · have hzero : t.countP (idMatch id) = 0 := by
        rw [List.countP_cons_of_pos _ _ hx] at hcount
        omega
      simp only [memoryDbUtils.deleteList, hx, if_true]
      rw [List.find?_eq_none]
      intro a hmem
      have := List.countP_eq_zero.mp hzero a hmem
      simpa using this
    · have hcount' : t.countP (idMatch id) ≤ 1 := by
        rw [List.countP_cons_of_neg _ _ hx] at hcount
        exact hcount
      have hstep : (memoryDbUtils.deleteList id (x :: t)).2
          = x :: (memoryDbUtils.deleteList id t).2 := by
        simp [memoryDbUtils.deleteList, hx]
      rw [hstep, List.find?_cons_of_neg _ hx]
      exact ih hcount'

/-! ### The claims -/

/-- Claim C1. After connectDB resolves following a failed MongoDB
connection attempt from the module-load initial store (empty events
collection), the events collection does hold exactly the two documented
sample records — not because of the catch block's clear, which is dead
code (its guard tests a memoryDb property the utils object does not
have), but because the initial collection is empty; against a store
already holding a stale record, three records remain. The process-wide
flag usingMemoryDb, however, is a constant fixed at module load from
NODE_ENV and MONGO_URI, and the catch block never switches it: it is
still false, contrary to the claim. -/
theorem connectDB_failure_seeds_but_flag_stays_false :
    (getColl c1Db "events").map (fun r => getField r "title")
      = [some (Value.vStr "Tech Conference 2025"),
         some (Value.vStr "Music Festival")]
    ∧ (getColl c1Db "events").length = 2
    ∧ usingMemoryDb { nodeEnv := "production", mongoUriSet := true } = false
    ∧ (getColl c1DbStale "events").map (fun r => getField r "title")
      = [some (Value.vStr "Stale"),
         some (Value.vStr "Tech Conference 2025"),
         some (Value.vStr "Music Festival")]
    ∧ (getColl c1DbStale "events").length = 3 := by
  decide

/-- Claim C2. The shim's findOneAndUpdate and findOneAndDelete read only
the `_id` key of the filter: with a stored record owned by alice and a
filter demanding owner bob, the update still mutates the record (and
returns it) and the delete still removes it — the extra predicate fields
are never verified, contrary to the claim. -/
theorem shim_update_delete_ignore_ownership_filter :
    getField ownedRec "organizer" = some (Value.vStr "alice")
    ∧ ((Event.findOneAndUpdate [("events", [ownedRec])] 2000 ownerFilter
          [("title", Value.vStr "hacked")]).1).map
        (fun r => (getField r "title", getField r "organizer"))
      = some (some (Value.vStr "hacked"), some (Value.vStr "alice"))
    ∧ (Event.findOneAndDelete [("events", [ownedRec])] ownerFilter).1
      = some ownedRec := by
  decide

/-- Claim C3, counterexample to the claim as stated. A filter key with an
unrecognized operator shape (the case-insensitive containment object on
title) does not raise any error: evaluation completes and silently
rejects a record whose title does contain the text ignoring case. -/
theorem unsupported_operator_silently_rejected :
    strContainsCI "Music Festival" "music" = true
    ∧ memoryDbUtils.find [("events", [musicRec])] "events"
        { orConds := none, fields := [("title", QVal.regex "music" true)] }
      = [] := by
  decide

/-- Claim C3, amended. Evaluating a filter whose key carries an operator
object rather than a literal never raises an error: the record's field is
compared to the operator object with strict equality, which is always
false, so the query silently matches no record at all. -/
theorem unsupported_operator_shape_never_matches
    (item : Record) (q : Query) (k : String) (qv : QVal)
    (hmem : (k, qv) ∈ q.fields) (hop : isOpShape qv = true) :
    matchQuery item q = false := by
  have hfalse : condEq item k qv = false := by
    cases qv with
    | lit v => simp [isOpShape] at hop
    | range a b => rfl
    | regex p ci => rfl
  have hall : q.fields.all (fun p => condEq item p.1 p.2) = false := by
    cases hA : q.fields.all (fun p => condEq item p.1 p.2) with
    | false => rfl
    | true =>
      have hx : condEq item k qv = true := List.all_eq_true.mp hA (k, qv) hmem
      rw [hfalse] at hx
      exact absurd hx (by decide)
  simp [matchQuery, hall]

/-- Witness for the amended claim C3 at a concrete record and filter. -/
theorem unsupported_operator_shape_never_matches_witness :
    matchQuery musicRec
      { orConds := none, fields := [("title", QVal.regex "music" true)] }
      = false :=
  unsupported_operator_shape_never_matches musicRec
    { orConds := none, fields := [("title", QVal.regex "music" true)] }
    "title" (QVal.regex "music" true) (by decide) (by decide)

/-- Claim C4. A record whose date (10) lies inclusively between both
bounds (5 and 15) is nevertheless rejected by the range filter, at the
matcher, at memoryDbUtils.find, and through the shim's Event.find: the
range object is compared with strict equality instead of being
interpreted, so a date-range filter matches no record. -/
theorem date_range_filter_matches_nothing :
    (5 ≤ 10 ∧ 10 ≤ 15)
    ∧ getField c4Rec "date" = some (Value.vDate 10)
    ∧ matchQuery c4Rec c4Query = false
    ∧ memoryDbUtils.find [("events", [c4Rec])] "events" c4Query = []
    ∧ Event.find [("events", [c4Rec])]
        { id := none, orConds := none, dateGte := some (Value.vDate 5),
          dateLte := some (Value.vDate 15), fields := [] } noOpts
      = [] := by
  decide

/-- Claim C5. The title "Music Festival" does contain "music" ignoring
case, yet the case-insensitive containment search the controller builds
(the or of regex conditions on title and description) matches nothing
through the shim: inside an or-disjunct the regex object is compared to
the stored title with strict equality, which is false. -/
theorem ci_substring_search_matches_nothing :
    strContainsCI "Music Festival" "music" = true
    ∧ getField musicRec "title" = some (Value.vStr "Music Festival")
    ∧ Event.find [("events", [musicRec])] (searchFilter "music") noOpts
      = [] := by
  decide

/-- Claim C6. Two create calls whose Date.now() readings tie are assigned
the SAME identifier: both records carry `_id` "1700000000000" and both sit
in the events collection, so identifiers are not pairwise distinct within
a collection. -/
theorem create_clock_tie_duplicates_identifier :
    getField c6Step1.1 "_id" = some (Value.vStr "1700000000000")
    ∧ getField c6Step2.1 "_id" = some (Value.vStr "1700000000000")
    ∧ c6Step1.1 ≠ c6Step2.1
    ∧ (getColl c6Step2.2 "events").length = 2 := by
  decide

/-- Claim C7, counterexample to the claim as stated. For a filter on an
ordinary field (status), countDocuments passes the raw filter to the
store and counts 0, while the shim's find drops the status key during
translation and returns the whole collection (length 1). -/
theorem countDocuments_differs_from_shim_find :
    Event.countDocuments [("events", [approvedRec])] statusFilter = 0
    ∧ (Event.find [("events", [approvedRec])] statusFilter noOpts).length
      = 1 := by
  decide

/-- Claim C7, amended. The count equals the length of the shim's find
result exactly for the filters whose every key the find translation
keeps, i.e. filters made of `$or` and the date range only (no `_id`, no
ordinary keys). -/
theorem countDocuments_eq_find_length_of_translated
    (db : MemoryDb) (f : Filter) (h1 : f.id = none) (h2 : f.fields = []) :
    Event.countDocuments db f = (Event.find db f noOpts).length := by
  have hq : filterRaw f = filterToQuery f := by
    simp [filterRaw, filterToQuery, h1, h2]
  simp [Event.countDocuments, Event.find, noOpts, hq]

/-- Witness for the amended claim C7 at a concrete store and a date-only
filter. -/
theorem countDocuments_eq_find_length_of_translated_witness :
    Event.countDocuments [("events", [approvedRec])] dateOnlyFilter
      = (Event.find [("events", [approvedRec])] dateOnlyFilter noOpts).length :=
  countDocuments_eq_find_length_of_translated
    [("events", [approvedRec])] dateOnlyFilter (by decide) (by decide)

/-- Claim C8, counterexample to the claim as stated. (i) When the update's
clock reading ties with the creation reading, the round-tripped record's
update timestamp EQUALS its creation timestamp instead of exceeding it.
(ii) When the updated field is the system field `_id`, findById under the
original identifier returns the not-found sentinel instead of the record. -/
theorem update_roundtrip_fails_on_tie_and_id_field :
    (memoryDbUtils.findById c8Upd.2 "events" "1000").map
        (fun r => getField r "updatedAt")
      = some (some (Value.vDate 1000))
    ∧ (memoryDbUtils.findById c8Upd.2 "events" "1000").map
        (fun r => getField r "createdAt")
      = some (some (Value.vDate 1000))
    ∧ c8UpdId.1 ≠ none
    ∧ memoryDbUtils.findById c8UpdId.2 "events" "1000" = none := by
  decide

/-- Claim C8, amended. For a stored record found under id, updating a
non-system field f at a clock reading strictly later than the record's
creation reading and reading it back yields a record whose field f holds
the new value, whose every other non-timestamp field is unchanged, and
whose update timestamp is strictly greater than its creation timestamp. -/
theorem update_findById_roundtrip
    (db : MemoryDb) (c id f : String) (v : Value) (tc tu : Nat) (r : Record)
    (hfound : memoryDbUtils.findById db c id = some r)
    (hc : getField r "createdAt" = some (Value.vDate tc))
    (hlt : tc < tu)
    (hf1 : f ≠ "_id") (hf2 : f ≠ "createdAt") (hf3 : f ≠ "updatedAt") :
    ∃ r',
      (memoryDbUtils.update db tu c id [(f, v)]).1 = some r'
      ∧ memoryDbUtils.findById
          (memoryDbUtils.update db tu c id [(f, v)]).2 c id = some r'
      ∧ getField r' f = some v
      ∧ (∀ k, k ≠ f → k ≠ "updatedAt" → getField r' k = getField r k)
      ∧ getField r' "createdAt" = some (Value.vDate tc)
      ∧ getField r' "updatedAt" = some (Value.vDate tu)
      ∧ tc < tu := by
  have hdata : getField ([(f, v)] : Record) "_id" = none := by
    rw [getField_single]
    simp [hf1]
  have hfound' : (getColl db c).find? (idMatch id) = some r := hfound
  have hspec := updateList_spec tu id [(f, v)] hdata (getColl db c) r hfound'
  refine ⟨r ++ [(f, v)] ++ [("updatedAt", Value.vDate tu)],
    hspec.1, ?_, ?_, ?_, ?_, ?_, hlt⟩
  · show (getColl (setColl db c
        (memoryDbUtils.updateList tu id [(f, v)] (getColl db c)).2) c).find?
        (idMatch id) = _
    rw [getColl_setColl]
    exact hspec.2
  · rw [getField_append, getField_append, getField_single, getField_single]
    have hb1 : ("updatedAt" == f) = false := by
      simp [Ne.symm hf3]
    have hb2 : (f == f) = true := by simp
    rw [hb1, hb2]
    simp [orD]
  · intro k hk1 hk2
    rw [getField_append, getField_append, getField_single, getField_single]
    have hb1 : ("updatedAt" == k) = false := by
      simp [Ne.symm hk2]
    have hb2 : (f == k) = false := by
      simp [Ne.symm hk1]
    rw [hb1, hb2]
    simp [orD]
  · rw [getField_append, getField_append, getField_single, getField_single]
    have hb1 : ("updatedAt" == "createdAt") = false := by decide
    have hb2 : (f == "createdAt") = false := by
      simp [hf2]
    rw [hb1, hb2, hc]
    simp [orD]
  · rw [getField_append, getField_single]
    have hb1 : ("updatedAt" == "updatedAt") = true := by decide
    rw [hb1]
    simp [orD]

/-- Witness for the amended claim C8: create at reading 1000, update the
location at reading 2000, read back. -/
theorem update_findById_roundtrip_witness :
    ∃ r',
      (memoryDbUtils.update c8Created.2 2000 "events" "1000"
          [("location", Value.vStr "M")]).1 = some r'
      ∧ memoryDbUtils.findById
          (memoryDbUtils.update c8Created.2 2000 "events" "1000"
            [("location", Value.vStr "M")]).2 "events" "1000" = some r'
      ∧ getField r' "location" = some (Value.vStr "M")
      ∧ (∀ k, k ≠ "location" → k ≠ "updatedAt" →
          getField r' k = getField c8Rec k)
      ∧ getField r' "createdAt" = some (Value.vDate 1000)
      ∧ getField r' "updatedAt" = some (Value.vDate 2000)
      ∧ 1000 < 2000 :=
  update_findById_roundtrip c8Created.2 "events" "1000" "location"
    (Value.vStr "M") 1000 2000 c8Rec (by decide) (by decide) (by decide)
    (by decide) (by decide) (by decide)

/-- Claim C9, counterexample to the claim as stated. In the store left by
two creates with tying clock readings (reachable, see claim C6), the two
records share an identifier, and deleting that identifier twice returns a
record BOTH times — the second call does not return the not-found
sentinel. -/
theorem delete_twice_on_duplicate_ids_returns_record :
    (memoryDbUtils.delete c6Step2.2 "events" "1700000000000").1 ≠ none
    ∧ (memoryDbUtils.delete
        (memoryDbUtils.delete c6Step2.2 "events" "1700000000000").2
        "events" "1700000000000").1 ≠ none := by
  decide

/-- Claim C9, amended. Provided at most one record of the collection
bears the identifier, the first delete returns exactly what findById
returns (the record when present, the sentinel otherwise) and the second
delete returns the not-found sentinel; neither call can fail. -/
theorem delete_twice_second_returns_sentinel
    (db : MemoryDb) (c id : String)
    (h : (getColl db c).countP (idMatch id) ≤ 1) :
    (memoryDbUtils.delete db c id).1 = memoryDbUtils.findById db c id
    ∧ (memoryDbUtils.delete (memoryDbUtils.delete db c id).2 c id).1
      = none := by
  constructor
  · exact deleteList_fst id (getColl db c)
  · have h1 : (memoryDbUtils.delete (memoryDbUtils.delete db c id).2 c id).1
        = (getColl (memoryDbUtils.delete db c id).2 c).find? (idMatch id) :=
      deleteList_fst id _
    have h2 : (memoryDbUtils.delete db c id).2
        = setColl db c (memoryDbUtils.deleteList id (getColl db c)).2 := rfl
    rw [h1, h2, getColl_setColl]
    exact deleteList_snd_no_match id (getColl db c) h

/-- Witness for the amended claim C9 at a singleton collection. -/
theorem delete_twice_second_returns_sentinel_witness :
    (memoryDbUtils.delete [("events", [ownedRec])] "events" "1").1
      = memoryDbUtils.findById [("events", [ownedRec])] "events" "1"
    ∧ (memoryDbUtils.delete
        (memoryDbUtils.delete [("events", [ownedRec])] "events" "1").2
        "events" "1").1 = none :=
  delete_twice_second_returns_sentinel [("events", [ownedRec])] "events" "1"
    (by decide)

/-- Claim C10. The shallow merge of update protects no system field: when
the update data rebinds `_id` or createdAt, the stored record's `_id` or
createdAt is replaced by the supplied value, while updatedAt is always
regenerated by the store regardless of the data. -/
theorem update_merge_overwrites_system_fields
    (db : MemoryDb) (c id : String) (data : Record) (now : Nat) (r' : Record)
    (hup : (memoryDbUtils.update db now c id data).1 = some r') :
    (∀ v, getField data "_id" = some v → getField r' "_id" = some v)
    ∧ (∀ v, getField data "createdAt" = some v →
        getField r' "createdAt" = some v)
    ∧ getField r' "updatedAt" = some (Value.vDate now) := by
  have hup' : (memoryDbUtils.updateList now id data (getColl db c)).1
      = some r' := hup
  obtain ⟨r, hr⟩ := updateList_shape now id data (getColl db c) r' hup'
  subst hr
  refine ⟨?_, ?_, ?_⟩
  · intro v hv
    rw [getField_append, getField_append, getField_single, hv]
    have hb : ("updatedAt" == "_id") = false := by decide
    rw [hb]
    simp [orD]
  · intro v hv
    rw [getField_append, getField_append, getField_single, hv]
    have hb : ("updatedAt" == "createdAt") = false := by decide
    rw [hb]
    simp [orD]
  · rw [getField_append, getField_single]
    have hb : ("updatedAt" == "updatedAt") = true := by decide
    rw [hb]
    simp [orD]

/-- Witness for claim C10: updating ownedRec with data that rebinds `_id`
and createdAt. -/
theorem update_merge_overwrites_system_fields_witness :
    (∀ v, getField c10Data "_id" = some v → getField c10Res "_id" = some v)
    ∧ (∀ v, getField c10Data "createdAt" = some v →
        getField c10Res "createdAt" = some v)
    ∧ getField c10Res "updatedAt" = some (Value.vDate 9) :=
  update_merge_overwrites_system_fields [("events", [ownedRec])] "events"
    "1" c10Data 9 c10Res (by decide)

end CollegeEvent
